import Mathlib

/-!
Verification of the `Result<ErrorTrait>` value type from
`result/include/result/Result.hpp` (audio_comms::utilities::result).

The C++ class template is shallowly embedded: the caller-supplied error
trait becomes a `Trait` structure bundling the distinguished codes, the
code-to-string rendering and the integer view used by `format`; a
`Result` is a code together with its diagnostic message string.  Each
member function of the C++ class becomes a Lean function translated
line by line from the source.
-/

namespace AudioComms

/-- The contract of the `ErrorTrait` template parameter: a code type `C`
(the trait's `Code`), the distinguished `success` and `defaultError`
codes, the static `codeToString` function and the integer view that
`static_cast<int>` gives inside `format`. -/
structure Trait (C : Type) where
  success : C
  defaultError : C
  codeToString : C → String
  toInt : C → Int

/-- `Result<ErrorTrait>`: the stored `_errorCode` and `_message` fields. -/
structure Result (C : Type) where
  errorCode : C
  message : String

variable {C E E2 CI : Type}

/-- `Result(Code code)`: hold `code`, message default-constructed empty. -/
def Result.make (_T : Trait C) (code : C) : Result C :=
  { errorCode := code, message := "" }

/-- `Result()`: the no-argument form uses `ErrorTrait::defaultError`. -/
def Result.makeDefault (T : Trait C) : Result C :=
  Result.make T T.defaultError

/-- `getErrorCode()`: returns the stored code. -/
def Result.getErrorCode (r : Result C) : C :=
  r.errorCode

/-- `getMessage()`: returns the stored message. -/
def Result.getMessage (r : Result C) : String :=
  r.message

/-- `isSuccess()`: `_errorCode == ErrorTrait::success`. -/
def Result.isSuccess [DecidableEq C] (T : Trait C) (r : Result C) : Bool :=
  decide (r.errorCode = T.success)

/-- `isFailure()`: `!isSuccess()`. -/
def Result.isFailure [DecidableEq C] (T : Trait C) (r : Result C) : Bool :=
  !(r.isSuccess T)

/-- `operator Code()`: the implicit view of a Result as its code. -/
def Result.toCode (r : Result C) : C :=
  r.errorCode

/-- `operator==`: comparison performed on the error code only. -/
def Result.beq [DecidableEq C] (r1 r2 : Result C) : Bool :=
  decide (r1.errorCode = r2.errorCode)

/-- `success()`: the canonical success value, `Result(ErrorTrait::success)`
with an empty message. -/
def Result.successValue [DecidableEq C] (T : Trait C) : Result C :=
  { errorCode := T.success, message := "" }

/-- The string `ss` built inside `format()` before the optional message:
`"Code " << static_cast<int>(_errorCode) << ": " << codeToString(_errorCode)`. -/
def Result.formatBase (T : Trait C) (r : Result C) : String :=
  "Code " ++ toString (T.toInt r.errorCode) ++ ": " ++ T.codeToString r.errorCode

/-- `format()`: `"Success"` on success, else `ss` with ` (message)` appended
when `message.length() > 0`. -/
def Result.format [DecidableEq C] (T : Trait C) (r : Result C) : String :=
  if r.isFailure T then
    if r.message.length > 0 then
      r.formatBase T ++ " (" ++ r.message ++ ")"
    else
      r.formatBase T
  else
    "Success"

/-- `Append<Data>::run`: stream the data into an `ostringstream` and append
the rendered text to `_message`.  The embedding takes the canonical text
rendering of the data as the argument. -/
def Result.appendData (r : Result C) (data : String) : Result C :=
  { r with message := r.message ++ data }

/-- `Append<Result<Err>>::run`: if `_message` is non-empty append `": "`
first, then append `data.format()`. -/
def Result.appendResult [DecidableEq E] (TE : Trait E) (r : Result C)
    (data : Result E) : Result C :=
  let m := if !r.message.isEmpty then r.message ++ ": " else r.message
  { r with message := m ++ data.format TE }

/-- `operator<<` for a generic value: run the append on the receiver, then
return a by-value copy of it.  The first component is the mutated
receiver's state, the second the returned copy. -/
def Result.shlData (r : Result C) (data : String) : Result C × Result C :=
  let res := r.appendData data
  (res, res)

/-- `operator<<` for a nested Result: run the append on the receiver, then
return a by-value copy of it. -/
def Result.shlResult [DecidableEq E] (TE : Trait E) (r : Result C)
    (data : Result E) : Result C × Result C :=
  let res := r.appendResult TE data
  (res, res)

/-- The cross-domain translating constructor
`Result(inputResult, failureCode, successCode)`: on a failing input take
`failureCode` and stream the input through `operator<<` into the fresh
(empty) message; otherwise take `successCode` and leave the message empty. -/
def Result.translate [DecidableEq C] [DecidableEq CI] (TI : Trait CI)
    (_T : Trait C) (inputResult : Result CI) (failureCode successCode : C) :
    Result C :=
  if inputResult.isFailure TI then
    Result.appendResult TI { errorCode := failureCode, message := "" } inputResult
  else
    { errorCode := successCode, message := "" }

/-! Helper lemmas about strings and about `format`. -/

theorem string_length_eq_zero_iff (s : String) : s.length = 0 ↔ s = "" := by
  cases s with
  | mk data =>
    constructor
    · intro h
      have hd : data = [] := List.length_eq_zero.mp h
      simp [hd]
    · intro h
      simp [h]

theorem string_ne_empty_of_length_pos {s : String} (h : 0 < s.length) : s ≠ "" := by
  intro he
  rw [he] at h
  simp at h

/-- The rendering of a Result is never the empty string: it is either
`"Success"` or begins with `"Code "`. -/
theorem formatBase_length_pos (T : Trait C) (r : Result C) :
    0 < (r.formatBase T).length := by
  unfold Result.formatBase
  rw [String.length_append, String.length_append, String.length_append]
  have h5 : (0 : Nat) < "Code ".length := by decide
  omega

theorem format_ne_empty [DecidableEq C] (T : Trait C) (r : Result C) :
    r.format T ≠ "" := by
  unfold Result.format
  by_cases h : r.isFailure T = true
  · rw [if_pos h]
    by_cases hm : r.message.length > 0
    · rw [if_pos hm]
      apply string_ne_empty_of_length_pos
      rw [String.length_append, String.length_append, String.length_append]
      have := formatBase_length_pos T r
      omega
    · rw [if_neg hm]
      exact string_ne_empty_of_length_pos (formatBase_length_pos T r)
  · rw [if_neg h]
    intro he
    exact absurd (congrArg String.length he) (by decide)

theorem message_isEmpty_iff (r : Result C) : r.message.isEmpty = true ↔ r.message = "" := by
  exact String.isEmpty_iff r.message

/-! The concrete test domain from the spec's end-to-end example:
`Code = {OK=0, NOT_FOUND=1, IO_ERROR=2}`, `success = OK`,
`defaultError = IO_ERROR`, `codeToString(NOT_FOUND) = "not found"`. -/

inductive TestCode
  | ok
  | notFound
  | ioError
deriving DecidableEq

def testTrait : Trait TestCode where
  success := TestCode.ok
  defaultError := TestCode.ioError
  codeToString c :=
    match c with
    | TestCode.ok => "ok"
    | TestCode.notFound => "not found"
    | TestCode.ioError => "io error"
  toInt c :=
    match c with
    | TestCode.ok => 0
    | TestCode.notFound => 1
    | TestCode.ioError => 2

/-- A second domain, used to exercise the colon-separated chain
`"Code 1: X: Code 2: Y"` of the spec's nested-append example. -/
inductive ChainCode
  | ok
  | ex
  | why
deriving DecidableEq

def chainTrait : Trait ChainCode where
  success := ChainCode.ok
  defaultError := ChainCode.ex
  codeToString c :=
    match c with
    | ChainCode.ok => "ok"
    | ChainCode.ex => "X"
    | ChainCode.why => "Y"
  toInt c :=
    match c with
    | ChainCode.ok => 0
    | ChainCode.ex => 1
    | ChainCode.why => 2

theorem length_pos_of_ne_empty {s : String} (h : s ≠ "") : 0 < s.length :=
  Nat.pos_of_ne_zero (fun h0 => h ((string_length_eq_zero_iff s).mp h0))

theorem empty_string_isEmpty : "".isEmpty = true := rfl

/-- C1: `format()` is deterministic and canonical: a Result whose code equals
the domain's success code renders exactly `"Success"`; otherwise it renders
`"Code "` followed by the integer value of the code, `": "`, and
`codeToString(code)`, with `" (" ++ message ++ ")"` appended iff the message
is non-empty. -/
theorem format_canonical [DecidableEq C] (T : Trait C) (r : Result C) :
    (r.errorCode = T.success → r.format T = "Success") ∧
    (r.errorCode ≠ T.success →
      r.format T =
        "Code " ++ toString (T.toInt r.errorCode) ++ ": " ++ T.codeToString r.errorCode ++
          (if r.message = "" then "" else " (" ++ r.message ++ ")")) := by
  constructor
  · intro h
    simp [Result.format, Result.isFailure, Result.isSuccess, h]
  · intro h
    have hf : r.isFailure T = true := by
      simp [Result.isFailure, Result.isSuccess, h]
    unfold Result.format
    rw [if_pos hf]
    by_cases hm : r.message = ""
    · have hl : ¬r.message.length > 0 := by
        simp [hm]
      rw [if_neg hl, if_pos hm]
      simp [Result.formatBase]
    · have hl : r.message.length > 0 := length_pos_of_ne_empty hm
      rw [if_pos hl, if_neg hm]
      simp [Result.formatBase, String.append_assoc]

/-- C1 witness: on the spec's end-to-end test domain, a success Result
formats to `"Success"`, and a `NOT_FOUND` failure formats to
`"Code 1: not found"` with and without the parenthesised message. -/
theorem format_canonical_witness :
    (Result.mk TestCode.ok "").format testTrait = "Success" ∧
    (Result.mk TestCode.notFound "file.txt").format testTrait =
      "Code 1: not found (file.txt)" ∧
    (Result.mk TestCode.notFound "").format testTrait = "Code 1: not found" := by
  refine ⟨(format_canonical testTrait (Result.mk TestCode.ok "")).1 rfl, ?_, ?_⟩
  · have h := (format_canonical testTrait (Result.mk TestCode.notFound "file.txt")).2
      (by decide)
    rw [h]
    decide
  · have h := (format_canonical testTrait (Result.mk TestCode.notFound "")).2 (by decide)
    rw [h]
    decide

/-- C4: direct construction stores the given code with an empty message,
`isSuccess()` holds iff the code is the domain's success code, `isFailure()`
is its exact negation, and the no-argument constructor stores
`defaultError`. -/
theorem make_spec [DecidableEq C] (T : Trait C) (c : C) :
    (Result.make T c).getErrorCode = c ∧
    (Result.make T c).getMessage = "" ∧
    ((Result.make T c).isSuccess T = true ↔ c = T.success) ∧
    (Result.make T c).isFailure T = !((Result.make T c).isSuccess T) ∧
    (Result.makeDefault T).getErrorCode = T.defaultError := by
  refine ⟨rfl, rfl, ?_, rfl, rfl⟩
  simp [Result.make, Result.isSuccess]

/-- C4 witness: on the test domain, `Result(NOT_FOUND)` holds `NOT_FOUND`,
has an empty message, is not a success, and `Result()` holds `IO_ERROR`. -/
theorem make_spec_witness :
    (Result.make testTrait TestCode.notFound).getErrorCode = TestCode.notFound ∧
    (Result.make testTrait TestCode.notFound).getMessage = "" ∧
    (Result.make testTrait TestCode.notFound).isSuccess testTrait = false ∧
    (Result.makeDefault testTrait).getErrorCode = TestCode.ioError := by
  have h := make_spec testTrait TestCode.notFound
  refine ⟨h.1, h.2.1, ?_, h.2.2.2.2⟩
  have hns : ¬TestCode.notFound = testTrait.success := by decide
  have := h.2.2.1
  cases hb : (Result.make testTrait TestCode.notFound).isSuccess testTrait with
  | false => rfl
  | true => exact absurd (this.mp hb) hns

/-- C5: `operator==` compares codes only: it returns true iff the two codes
are equal, so equal codes with different messages compare equal, and
different codes never compare equal. -/
theorem eq_compares_codes_only [DecidableEq C] (r1 r2 : Result C) :
    (Result.beq r1 r2 = true ↔ r1.errorCode = r2.errorCode) ∧
    (∀ (c : C) (m1 m2 : String),
      Result.beq (Result.mk c m1) (Result.mk c m2) = true) ∧
    (r1.errorCode ≠ r2.errorCode → Result.beq r1 r2 = false) := by
  refine ⟨by simp [Result.beq], fun c m1 m2 => by simp [Result.beq], fun h => by
    simp [Result.beq, h]⟩

/-- C5 witness: two Results with the same code and different messages compare
equal; two with different codes and the same message compare unequal. -/
theorem eq_compares_codes_only_witness :
    Result.beq (Result.mk TestCode.notFound "a") (Result.mk TestCode.notFound "b") =
      true ∧
    Result.beq (Result.mk TestCode.notFound "a") (Result.mk TestCode.ok "a") = false := by
  constructor
  · exact (eq_compares_codes_only (Result.mk TestCode.notFound "a")
      (Result.mk TestCode.notFound "b")).2.1 TestCode.notFound "a" "b"
  · exact (eq_compares_codes_only (Result.mk TestCode.notFound "a")
      (Result.mk TestCode.ok "a")).2.2 (by decide)

/-- C6: the `success()` factory value is a success, carries an empty message,
formats to `"Success"`, and two calls for the same domain compare equal. -/
theorem success_factory_spec [DecidableEq C] (T : Trait C) :
    (Result.successValue T).isSuccess T = true ∧
    (Result.successValue T).getMessage = "" ∧
    (Result.successValue T).format T = "Success" ∧
    Result.beq (Result.successValue T) (Result.successValue T) = true := by
  refine ⟨?_, rfl, ?_, ?_⟩
  · simp [Result.successValue, Result.isSuccess]
  · simp [Result.format, Result.isFailure, Result.isSuccess, Result.successValue]
  · simp [Result.beq]

/-- C9: appending the empty string through the generic value append leaves
the Result exactly unchanged. -/
theorem append_empty_identity (r : Result C) : r.appendData "" = r := by
  unfold Result.appendData
  rw [String.append_empty]

/-- C2: the cross-domain translating constructor re-codes a failing input to
`failureCode` with the input's `format()` rendering as the entire message
(no leading separator, the fresh message being empty), and maps a succeeding
input to `successCode` with an empty message. -/
theorem translate_spec [DecidableEq C] [DecidableEq CI] (TI : Trait CI) (T : Trait C)
    (ir : Result CI) (fc sc : C) :
    (ir.isFailure TI = true →
      (Result.translate TI T ir fc sc).getErrorCode = fc ∧
      (Result.translate TI T ir fc sc).getMessage = ir.format TI) ∧
    (ir.isSuccess TI = true →
      (Result.translate TI T ir fc sc).getErrorCode = sc ∧
      (Result.translate TI T ir fc sc).getMessage = "") := by
  constructor
  · intro h
    unfold Result.translate
    rw [if_pos h]
    refine ⟨rfl, ?_⟩
    simp [Result.appendResult, Result.getMessage, empty_string_isEmpty]
  · intro h
    have hf : ir.isFailure TI = false := by
      simp [Result.isFailure, h]
    unfold Result.translate
    rw [if_neg (by simp [hf])]
    exact ⟨rfl, rfl⟩

/-- C2 witness: translating the failing chain-domain Result with code `X`
into the test domain with failure code `IO_ERROR` gives code `IO_ERROR` and
message `"Code 1: X"`; translating a succeeding one gives the chosen success
code `OK` and an empty message. -/
theorem translate_spec_witness :
    (Result.translate chainTrait testTrait (Result.mk ChainCode.ex "")
        TestCode.ioError TestCode.ok).getErrorCode = TestCode.ioError ∧
    (Result.translate chainTrait testTrait (Result.mk ChainCode.ex "")
        TestCode.ioError TestCode.ok).getMessage = "Code 1: X" ∧
    (Result.translate chainTrait testTrait (Result.mk ChainCode.ok "")
        TestCode.ioError TestCode.ok).getErrorCode = TestCode.ok ∧
    (Result.translate chainTrait testTrait (Result.mk ChainCode.ok "")
        TestCode.ioError TestCode.ok).getMessage = "" := by
  have hf := (translate_spec chainTrait testTrait (Result.mk ChainCode.ex "")
    TestCode.ioError TestCode.ok).1 (by decide)
  have hs := (translate_spec chainTrait testTrait (Result.mk ChainCode.ok "")
    TestCode.ioError TestCode.ok).2 (by decide)
  refine ⟨hf.1, ?_, hs.1, hs.2⟩
  rw [hf.2]
  decide

/-- C3: nested-Result append prepends `": "` exactly when the receiver's
message is non-empty, then appends `other.format()`; hence two appends onto
an empty message give `a.format ++ ": " ++ b.format` with the separator only
between the entries. -/
theorem appendResult_separator_rule [DecidableEq C] [DecidableEq E] [DecidableEq E2]
    (TE : Trait E) (TE2 : Trait E2) (r : Result C) (other a : Result E)
    (b : Result E2) :
    (r.appendResult TE other).message =
      (if r.message = "" then "" else r.message ++ ": ") ++ other.format TE ∧
    (r.message = "" →
      ((r.appendResult TE a).appendResult TE2 b).message =
        a.format TE ++ ": " ++ b.format TE2) := by
  have rule : ∀ (E3 : Type) (i3 : DecidableEq E3) (TE3 : Trait E3) (x : Result C)
      (o : Result E3),
      (x.appendResult TE3 o).message =
        (if x.message = "" then "" else x.message ++ ": ") ++ o.format TE3 := by
    intro E3 i3 TE3 x o
    by_cases hm : x.message = ""
    · simp [Result.appendResult, hm, empty_string_isEmpty]
    · have he : x.message.isEmpty = false := by
        cases hb : x.message.isEmpty with
        | false => rfl
        | true => exact absurd ((String.isEmpty_iff x.message).mp hb) hm
      simp [Result.appendResult, he, hm]
  refine ⟨rule E _ TE r other, ?_⟩
  intro hm
  have h1 : (r.appendResult TE a).message = a.format TE := by
    rw [rule E _ TE r a, if_pos hm, String.empty_append]
  have h2 := rule E2 inferInstance TE2 (r.appendResult TE a) b
  rw [h1] at h2
  rw [h2, if_neg (format_ne_empty TE a)]

/-- C3 witness: starting from an empty message, appending the failure whose
format is `"Code 1: X"` and then the failure whose format is `"Code 2: Y"`
yields exactly `"Code 1: X: Code 2: Y"`. -/
theorem appendResult_separator_rule_witness :
    (((Result.mk TestCode.notFound "").appendResult chainTrait
        (Result.mk ChainCode.ex "")).appendResult chainTrait
        (Result.mk ChainCode.why "")).message = "Code 1: X: Code 2: Y" := by
  have h := (appendResult_separator_rule chainTrait chainTrait
    (Result.mk TestCode.notFound "") (Result.mk ChainCode.ex "")
    (Result.mk ChainCode.ex "") (Result.mk ChainCode.why "")).2 rfl
  rw [h]
  decide

/-- C7: both append operations leave the stored code (and hence the
success/failure classification) unchanged, and only ever extend the message:
the old message is a prefix of the new one. -/
theorem append_preserves_code_and_message [DecidableEq C] [DecidableEq E]
    (T : Trait C) (TE : Trait E) (r : Result C) (s : String) (other : Result E) :
    (r.appendData s).errorCode = r.errorCode ∧
    (r.appendData s).isSuccess T = r.isSuccess T ∧
    (∃ t, (r.appendData s).message = r.message ++ t) ∧
    (r.appendResult TE other).errorCode = r.errorCode ∧
    (r.appendResult TE other).isSuccess T = r.isSuccess T ∧
    (∃ t, (r.appendResult TE other).message = r.message ++ t) := by
  refine ⟨rfl, rfl, ⟨s, rfl⟩, rfl, rfl, ?_⟩
  cases hb : r.message.isEmpty with
  | true =>
    refine ⟨other.format TE, ?_⟩
    simp [Result.appendResult, hb]
  | false =>
    refine ⟨": " ++ other.format TE, ?_⟩
    simp [Result.appendResult, hb, String.append_assoc]

/-- C8: nested-Result append does not special-case success inputs: appending
a success-valued Result appends the literal `"Success"`, preceded by `": "`
exactly when the receiver's message was non-empty. -/
theorem appendResult_of_success [DecidableEq C] [DecidableEq E] (TE : Trait E)
    (r : Result C) (s : Result E) (h : s.isSuccess TE = true) :
    (r.appendResult TE s).message =
      r.message ++ (if r.message = "" then "" else ": ") ++ "Success" := by
  have hf : s.format TE = "Success" := by
    simp [Result.format, Result.isFailure, h]
  by_cases hm : r.message = ""
  · simp [Result.appendResult, hm, hf, empty_string_isEmpty]
  · have he : r.message.isEmpty = false := by
      cases hb : r.message.isEmpty with
      | false => rfl
      | true => exact absurd ((String.isEmpty_iff r.message).mp hb) hm
    simp [Result.appendResult, he, hm, hf]

/-- C8 witness: appending the chain domain's success value to a Result with
message `"ctx"` yields message `"ctx: Success"`, and to a Result with an
empty message yields `"Success"`. -/
theorem appendResult_of_success_witness :
    ((Result.mk TestCode.notFound "ctx").appendResult chainTrait
        (Result.successValue chainTrait)).message = "ctx: Success" ∧
    ((Result.mk TestCode.notFound "").appendResult chainTrait
        (Result.successValue chainTrait)).message = "Success" := by
  have h1 := appendResult_of_success chainTrait (Result.mk TestCode.notFound "ctx")
    (Result.successValue chainTrait) (by decide)
  have h2 := appendResult_of_success chainTrait (Result.mk TestCode.notFound "")
    (Result.successValue chainTrait) (by decide)
  constructor
  · rw [h1]
    decide
  · rw [h2]
    decide

/-- C10: `operator<<` returns a by-value copy identical to the mutated
receiver, for both dispatch cases, and chaining `r << a << b` accumulates:
the value of the whole expression keeps the code and carries both appends in
order. -/
theorem shl_returns_mutated_copy [DecidableEq C] [DecidableEq E] (TE : Trait E)
    (r : Result C) (other : Result E) (a b : String) :
    (r.shlData a).2 = (r.shlData a).1 ∧
    (r.shlResult TE other).2 = (r.shlResult TE other).1 ∧
    ((r.shlData a).2.shlData b).2.errorCode = r.errorCode ∧
    ((r.shlData a).2.shlData b).2.message = r.message ++ a ++ b := by
  exact ⟨rfl, rfl, rfl, rfl⟩

end AudioComms
